import Mathlib

set_option maxRecDepth 8000
set_option linter.unusedVariables false

/-!
Verification of the ArtCertify certification service against its
natural-language specification.

The development shallowly embeds the four components the spec describes —
the CID/address codec (`CidDecoder`), the batched upload coordinator
(`uploadFilesInParallel`), the minting/versioning orchestrator
(`createDocumentCertification` / `updateCertification`) and the post-hoc
validator (`validateCertification`) — as pure, executable Lean functions.
External collaborators (IPFS uploads, the Algorand ledger) appear as
explicit function parameters, and the calls the orchestrator issues to the
ledger are recorded in an explicit event trace so that claims about which
calls happen (or do not happen) are statable.
-/

namespace ArtCertify

/-! ### Bit-level base32 machinery

The repository derives a 58-character ledger address from a 36-byte
payload+checksum via the ledger SDK's base32 encoding (no padding, over the
alphabet A–Z2–7).  Bytes are modelled as `Nat` below 256; bit streams as
`List Bool`, most significant bit first. -/

/-- Most-significant-first value of a list of bits. -/
def bitsToNatMSB (l : List Bool) : Nat :=
  l.foldl (fun a b => 2 * a + cond b 1 0) 0

/-- The eight bits of a byte, most significant first. -/
def byteToBits (b : Nat) : List Bool :=
  [b.testBit 7, b.testBit 6, b.testBit 5, b.testBit 4,
   b.testBit 3, b.testBit 2, b.testBit 1, b.testBit 0]

/-- All bits of a byte string, most significant bit of each byte first. -/
def bytesToBits (l : List Nat) : List Bool :=
  (l.map byteToBits).flatten

/-- Split a bit stream into 5-bit group values; a leftover shorter than five
bits is dropped (callers pad to a multiple of five first). -/
def chunk5 : List Bool → List Nat
  | b0 :: b1 :: b2 :: b3 :: b4 :: rest =>
      bitsToNatMSB [b0, b1, b2, b3, b4] :: chunk5 rest
  | _ => []

/-- Number of zero bits needed to pad a stream of length `n` to a multiple
of five. -/
def zeroPad5 (n : Nat) : Nat := (5 - n % 5) % 5

/-- Pad with zero bits and split into 5-bit group values. -/
def bitsToChunks5 (l : List Bool) : List Nat :=
  chunk5 (l ++ List.replicate (zeroPad5 l.length) false)

/-- The five bits of a 5-bit group value, most significant first. -/
def chunkToBits (v : Nat) : List Bool :=
  [v.testBit 4, v.testBit 3, v.testBit 2, v.testBit 1, v.testBit 0]

def chunksToBits (l : List Nat) : List Bool :=
  (l.map chunkToBits).flatten

/-- Reassemble bytes from a bit stream, eight bits at a time; a leftover
shorter than eight bits is dropped. -/
def bitsToBytes : List Bool → List Nat
  | b0 :: b1 :: b2 :: b3 :: b4 :: b5 :: b6 :: b7 :: rest =>
      bitsToNatMSB [b0, b1, b2, b3, b4, b5, b6, b7] :: bitsToBytes rest
  | _ => []

/-- The ledger's base32 alphabet (RFC 4648, A–Z then 2–7). -/
def base32Alphabet : List Char :=
  ['A', 'B', 'C', 'D', 'E', 'F', 'G', 'H', 'I', 'J', 'K', 'L', 'M',
   'N', 'O', 'P', 'Q', 'R', 'S', 'T', 'U', 'V', 'W', 'X', 'Y', 'Z',
   '2', '3', '4', '5', '6', '7']

def valToChar (v : Nat) : Char := base32Alphabet.getD v ('A')

/-- Index of a character in a list, if present. -/
def indexIn : List Char → Char → Option Nat
  | [], _ => none
  | a :: as, c => if a = c then some 0 else (indexIn as c).map (· + 1)

def charToVal (c : Char) : Option Nat := indexIn base32Alphabet c

/-- Decode every character of a candidate address to its 5-bit value;
`none` if any character is outside the alphabet. -/
def decodeVals : List Char → Option (List Nat)
  | [] => some []
  | c :: cs =>
    match charToVal c, decodeVals cs with
    | some v, some vs => some (v :: vs)
    | _, _ => none

/-! ### Checksum and address codec -/

/-- Modelled from the spec: "append the ledger's native 4-byte checksum of
that payload" (§4.1).  The concrete checksum hash lives in the external
ledger SDK collaborator, outside this repository; every property proved here
relies only on it being a fixed deterministic 4-byte function of the
payload, so it is modelled as a concrete 32-bit mixing fold. -/
def chkWord (payload : List Nat) : Nat :=
  payload.foldl (fun a b => (a * 131 + b + 7) % 4294967296) 17

/-- The 4 checksum bytes appended to a 32-byte address payload. -/
def chk (payload : List Nat) : List Nat :=
  [chkWord payload / 16777216 % 256, chkWord payload / 65536 % 256,
   chkWord payload / 256 % 256, chkWord payload % 256]

/-- Base32-encode a byte string (payload plus checksum) with no padding,
as the ledger SDK renders addresses. -/
def encodeAddressBytes (bytes : List Nat) : String :=
  String.mk ((bitsToChunks5 (bytesToBits bytes)).map valToChar)

/-- Render a 32-byte payload as a ledger address: append the 4-byte
checksum, then base32-encode the 36 bytes into 58 characters. -/
def encodeAddress (payload : List Nat) : String :=
  encodeAddressBytes (payload ++ chk payload)

/-- Base32-decode a 58-character candidate address back to its 36 bytes;
`none` if the length or any character is wrong. -/
def base32DecodeBytes (s : String) : Option (List Nat) :=
  if s.toList.length = 58 then
    match decodeVals s.toList with
    | some vals => some (bitsToBytes ((chunksToBits vals).take 288))
    | none => none
  else none

deriving instance DecidableEq for Except

/-- Failure modes of the CID/address codec (spec §4.1/§7). -/
inductive CodecError where
  | unsupportedDigest
  | invalidChecksum
  | invalidAddress
deriving DecidableEq

/-- Decode a ledger address: base32-decode, recompute the checksum over the
leading 32 bytes and compare to the trailing 4 (spec §4.1; the checksum
comparison is the one the external `algosdk.decodeAddress` performs). -/
def decodeAddress (s : String) : Except CodecError (List Nat) :=
  match base32DecodeBytes s with
  | none => .error .invalidAddress
  | some bytes =>
    if bytes.drop 32 = chk (bytes.take 32) then .ok (bytes.take 32)
    else .error .invalidChecksum

/-- A multihash: hash-function id, declared digest length, digest bytes.
sha2-256 has id 18 (0x12). -/
structure Multihash where
  code : Nat
  size : Nat
  digest : List Nat
deriving DecidableEq

/-- A content identifier: version, content-type codec tag, multihash.
The raw codec tag is 85 (0x55), dag-pb is 112 (0x70). -/
structure Cid where
  version : Nat
  codec : Nat
  mh : Multihash
deriving DecidableEq

/-- `CidDecoder.fromCidToAddress`: extract the multihash, require
sha2-256 with a 32-byte digest (otherwise `UnsupportedDigest`), and render
the digest as a checksummed base32 ledger address.  The digest check is
modelled from the spec (§4.1): it sits inside `multihashToAlgorandAddress`,
whose body is not part of the repository source. -/
def fromCidToAddress (cid : Cid) : Except CodecError String :=
  if cid.mh.code = 18 ∧ cid.mh.size = 32 ∧ cid.mh.digest.length = 32 then
    .ok (encodeAddress cid.mh.digest)
  else
    .error .unsupportedDigest

/-- `CidDecoder.fromAddressToCid`: decode the address (checksum verified),
wrap the 32-byte payload in a sha2-256 multihash and build a version-1 CID
with the raw codec tag 85, exactly as the source does with
`CID.createV1(0x55, multihash)`. -/
def fromAddressToCid (s : String) : Except CodecError Cid :=
  match decodeAddress s with
  | .error e => .error e
  | .ok payload => .ok ⟨1, 85, ⟨18, 32, payload⟩⟩

/-! ### Rendering helpers

The orchestrator embeds the metadata CID in the asset's informational URL
as an `ipfs://` link.  CID text rendering lives in the external multiformats
library; it is modelled as an explicit rendering of the CID's fields.
`natToStr` is a fuel-driven decimal renderer (structurally recursive, so it
evaluates inside the kernel). -/

def digitChar (d : Nat) : Char :=
  ['0', '1', '2', '3', '4', '5', '6', '7', '8', '9'].getD d ('0')

def natToStrAux : Nat → Nat → List Char
  | 0, _ => []
  | _ + 1, n =>
    if n < 10 then [digitChar n]
    else natToStrAux n (n / 10) ++ [digitChar (n % 10)]

def natToStr (n : Nat) : String := String.mk (natToStrAux (n + 1) n)

def digestText : List Nat → String
  | [] => ""
  | [b] => natToStr b
  | b :: rest => natToStr b ++ (".") ++ digestText rest

/-- Modelled from the spec: the CID text form produced by the external
multiformats library; modelled as an injective rendering of the CID's
fields. -/
def cidText (c : Cid) : String :=
  natToStr c.version ++ ("-") ++ natToStr c.codec ++ ("-") ++
    natToStr c.mh.code ++ ("-") ++ natToStr c.mh.size ++ ("-") ++
    digestText c.mh.digest

/-! ### Upload coordinator

`uploadFilesInParallel` groups the files into fixed batches of three,
launches the uploads of one batch together and waits for the whole batch
(`Promise.all`) before starting the next; the inter-batch delay and the
per-file `keyvalues` metadata have no observable effect on the result and
are not modelled.  `Promise.all` rejects with the first rejection; in this
deterministic model "first" is the earliest index in the batch. -/

/-- A file handed to the upload coordinator. -/
structure MFile where
  name : String
deriving DecidableEq

/-- Per-file upload result (`FileHash` in the source). -/
structure FileHash where
  name : String
  hash : String
deriving DecidableEq

/-- A failed file upload, as reported by the storage collaborator: the
offending file and a message (spec §7, `UploadError{file}`). -/
structure UploadFailure where
  file : MFile
  msg : String
deriving DecidableEq

/-- `Promise.all`: all results, or the first failure. -/
def promiseAll {ε α : Type} : List (Except ε α) → Except ε (List α)
  | [] => .ok []
  | x :: xs =>
    match x with
    | .error e => .error e
    | .ok a =>
      match promiseAll xs with
      | .error e => .error e
      | .ok as => .ok (a :: as)

/-- The batches the `for (let i = 0; i < files.length; i += BATCH_SIZE)`
loop slices out, with the hard-coded `BATCH_SIZE = 3`. -/
def batches3 {α : Type} : List α → List (List α)
  | [] => []
  | a :: b :: c :: rest => [a, b, c] :: batches3 rest
  | l => [l]

def uploadBatches (up : MFile → Except UploadFailure FileHash) :
    List (List MFile) → Except UploadFailure (List FileHash)
  | [] => .ok []
  | b :: bs =>
    match promiseAll (b.map up) with
    | .error e => .error e
    | .ok rs =>
      match uploadBatches up bs with
      | .error e => .error e
      | .ok rest => .ok (rs ++ rest)

def uploadFilesInParallel (up : MFile → Except UploadFailure FileHash)
    (files : List MFile) : Except UploadFailure (List FileHash) :=
  uploadBatches up (batches3 files)

/-! ### Minting orchestrator -/

/-- The metadata document uploaded after all files succeed
(`prepareCertificationMetadata`); only the parts the claims inspect are
modelled. -/
structure Metadata where
  name : String
  description : String
  image : String
  filesMeta : List FileHash
deriving DecidableEq

/-- The descriptive form fields of a document certification. -/
structure DocumentData where
  documentName : String
  description : String
  authorName : String
  date : String
  assetName : String
  unitName : String
  orgName : String
deriving DecidableEq

/-- Modelled from the spec: step S1 "Validate required descriptive fields
and organization data" (`validateCertificationData`, whose body is not part
of the repository source). -/
def validData (d : DocumentData) : Bool :=
  d.documentName != "" && d.description != "" && d.assetName != "" &&
    d.unitName != "" && d.orgName != ""

def prepareCertificationMetadata (data : DocumentData)
    (fhs : List FileHash) : Metadata :=
  { name := data.assetName
    description := data.description
    image := match fhs with
      | [] => ""
      | f :: _ => ("ipfs://") ++ f.hash
    filesMeta := fhs }

/-- The error taxonomy of the minting saga (spec §7).
`partialMintFailure` is included so that the spec's claimed
`PartialMintFailure{assetId}` outcome is statable; the source never
constructs it. -/
inductive MintError where
  | validationError
  | uploadError (f : UploadFailure)
  | metadataUploadError (msg : String)
  | codecError (e : CodecError)
  | assetCreateError (msg : String)
  | updateReserveError (msg : String)
  | partialMintFailure (assetId : Nat)
deriving DecidableEq

/-- The asset id an error carries, if any. -/
def mintErrorAssetId : MintError → Option Nat
  | .partialMintFailure a => some a
  | _ => none

/-- The parameters of the `createAsset` ledger call (source step 5). -/
structure CreateAssetParams where
  assetName : String
  unitName : String
  total : Nat
  decimals : Nat
  defaultFrozen : Bool
  manager : String
  reserve : String
  freeze : String
  clawback : String
  url : String
  note : String
deriving DecidableEq

structure CreateAssetResult where
  assetId : Nat
  txId : String
deriving DecidableEq

/-- The parameters of the `updateAssetReserve` ledger call (the manager
mnemonic, a signing secret with no observable effect on the result, is not
modelled). -/
structure UpdateReserveParams where
  assetId : Nat
  newReserveAddress : String
deriving DecidableEq

structure UpdateReserveResult where
  txId : String
  confirmedRound : Nat
deriving DecidableEq

/-- A call issued to the ledger collaborator, recorded in order. -/
inductive LedgerEvent where
  | assetCreate (p : CreateAssetParams)
  | reserveUpdate (p : UpdateReserveParams)
deriving DecidableEq

structure MintingResult where
  assetId : Nat
  txId : String
  updateTxId : String
  confirmedRound : Nat
  metadataUrl : String
  metadataHash : Cid
  fileHashes : List FileHash
  finalReserveAddress : String
deriving DecidableEq

/-- The external collaborators of the orchestrator, as explicit functions:
file upload and JSON upload (IPFS service), asset creation and reserve
update (ledger service). -/
structure MintDeps where
  creatorAddress : String
  up : MFile → Except UploadFailure FileHash
  uploadJSON : Metadata → Except String Cid
  createAsset : CreateAssetParams → Except String CreateAssetResult
  updateReserve : UpdateReserveParams → Except String UpdateReserveResult

/-- Aggregate result of `uploadCertificationAssets`: per-file hashes plus
the metadata document's own CID and `ipfs://` URL. -/
structure IpfsUploadResult where
  fileHashes : List FileHash
  metadataCid : Cid
  metadataUrl : String
deriving DecidableEq

/-- `uploadCertificationAssets`: upload all files in batches, then build
and upload the metadata document, returning its identifier separately. -/
def uploadCertificationAssets (deps : MintDeps) (data : DocumentData)
    (files : List MFile) : Except MintError IpfsUploadResult :=
  match uploadFilesInParallel deps.up files with
  | .error f => .error (.uploadError f)
  | .ok fhs =>
    match deps.uploadJSON (prepareCertificationMetadata data fhs) with
    | .error m => .error (.metadataUploadError m)
    | .ok cid => .ok ⟨fhs, cid, ("ipfs://") ++ cidText cid⟩

/-- The exact argument record of the `createAsset` ledger call the saga
issues (source step 5): total 1, decimals 0, every role address — including
the temporary reserve placeholder — set to the creator, and the `ipfs://`
URL of the uploaded metadata. -/
def mintAssetParams (deps : MintDeps) (data : DocumentData)
    (ipfsResult : IpfsUploadResult) : CreateAssetParams :=
  { assetName := data.assetName
    unitName := data.unitName
    total := 1
    decimals := 0
    defaultFrozen := false
    manager := deps.creatorAddress
    reserve := deps.creatorAddress
    freeze := deps.creatorAddress
    clawback := deps.creatorAddress
    url := ipfsResult.metadataUrl
    note := ("ArtCertify certification: ") ++ data.documentName }

/-- `createDocumentCertification`, the minting saga: validate, upload,
derive the reserve address from the metadata CID, create the asset with
total 1 / decimals 0 / clawback = creator / the creator address as the
temporary reserve, then update the reserve to the derived address.  The
second component records the ledger calls actually issued, in order. -/
def createDocumentCertification (deps : MintDeps) (data : DocumentData)
    (files : List MFile) :
    Except MintError MintingResult × List LedgerEvent :=
  if validData data = false then (.error .validationError, [])
  else
    match uploadCertificationAssets deps data files with
    | .error e => (.error e, [])
    | .ok ipfsResult =>
      match fromCidToAddress ipfsResult.metadataCid with
      | .error e => (.error (.codecError e), [])
      | .ok reserveAddress =>
        let params := mintAssetParams deps data ipfsResult
        match deps.createAsset params with
        | .error e => (.error (.assetCreateError e), [.assetCreate params])
        | .ok cr =>
          let uparams : UpdateReserveParams :=
            ⟨cr.assetId, reserveAddress⟩
          match deps.updateReserve uparams with
          | .error e =>
            (.error (.updateReserveError e),
             [.assetCreate params, .reserveUpdate uparams])
          | .ok ur =>
            (.ok { assetId := cr.assetId
                   txId := cr.txId
                   updateTxId := ur.txId
                   confirmedRound := ur.confirmedRound
                   metadataUrl := ipfsResult.metadataUrl
                   metadataHash := ipfsResult.metadataCid
                   fileHashes := ipfsResult.fileHashes
                   finalReserveAddress := reserveAddress },
             [.assetCreate params, .reserveUpdate uparams])

/-! ### Versioned updates

`updateCertification` reads the asset's current reserve, decodes it to the
previous version's CID, builds the new metadata with `version_info`
(`nextVersion = currentVersion + 1`, `previous_cid = currentCID`), uploads
it and repoints the reserve.  The content-addressed store is modelled
explicitly: `digestOf` is the content digest the storage collaborator
computes for a document (Modelled from the spec: `getCurrentVersion`, whose
body is not part of the repository source, reads the current version number
from the asset's current metadata record). -/

/-- A stored metadata record: its version number, the back-reference to the
previous record's CID (`previous_cid`), and the rest of the document. -/
structure VersionedMeta where
  version : Nat
  previousCid : Option Cid
  payload : String
deriving DecidableEq

/-- The on-chain reserve together with the content-addressed store. -/
structure ChainState where
  reserve : String
  store : List (Cid × VersionedMeta)
deriving DecidableEq

/-- Failure modes of `updateCertification`.  `versionConflict` is included
so that the spec's claimed optimistic-concurrency failure is statable; the
source never constructs it. -/
inductive UpdateError where
  | codecError (e : CodecError)
  | metadataNotFound
  | versionConflict
deriving DecidableEq

structure UpdateOutcome where
  newCid : Cid
  newVersion : Nat
  newReserve : String
deriving DecidableEq

def lookupMeta : List (Cid × VersionedMeta) → Cid → Option VersionedMeta
  | [], _ => none
  | (c, m) :: rest, target =>
    if c = target then some m else lookupMeta rest target

/-- The CID the storage collaborator mints for a fresh upload with the
given content digest (version 1, raw codec, sha2-256). -/
def cidOf (digest : List Nat) : Cid := ⟨1, 85, ⟨18, 32, digest⟩⟩

/-- `updateCertification` on an asset whose current state is `st`.
`reserveAtWrite` is the on-chain reserve at the moment the write lands: the
source issues `updateAssetReserve` directly after the upload, without any
re-read, so the argument is never consulted — which is exactly what claim
C7 is about. -/
def updateCertification (digestOf : VersionedMeta → List Nat)
    (st : ChainState) (reserveAtWrite : String) (newData : String) :
    Except UpdateError (ChainState × UpdateOutcome) :=
  match fromAddressToCid st.reserve with
  | .error e => .error (.codecError e)
  | .ok currentCid =>
    match lookupMeta st.store currentCid with
    | none => .error .metadataNotFound
    | some prevMeta =>
      let newMeta : VersionedMeta :=
        ⟨prevMeta.version + 1, some currentCid, newData⟩
      let newCid := cidOf (digestOf newMeta)
      match fromCidToAddress newCid with
      | .error e => .error (.codecError e)
      | .ok newReserve =>
        .ok (⟨newReserve, (newCid, newMeta) :: st.store⟩,
             ⟨newCid, newMeta.version, newReserve⟩)

def updateSucceeded (r : Except UpdateError (ChainState × UpdateOutcome)) :
    Bool :=
  match r with
  | .ok _ => true
  | .error _ => false

/-- The second version record: version 2, back-reference to the initial
record's CID. -/
def chainMeta2 (df : VersionedMeta → List Nat) (m1 : VersionedMeta)
    (nd2 : String) : VersionedMeta :=
  ⟨2, some (cidOf (df m1)), nd2⟩

/-- The third version record: version 3, back-reference to the second
record's CID. -/
def chainMeta3 (df : VersionedMeta → List Nat) (m1 : VersionedMeta)
    (nd2 nd3 : String) : VersionedMeta :=
  ⟨3, some (cidOf (df (chainMeta2 df m1 nd2))), nd3⟩

/-- Initial chain state: the reserve encodes the version-1 record's CID. -/
def chainSt0 (df : VersionedMeta → List Nat) (m1 : VersionedMeta) :
    ChainState :=
  ⟨encodeAddress (df m1), [(cidOf (df m1), m1)]⟩

/-- Chain state after the first successful update. -/
def chainSt1 (df : VersionedMeta → List Nat) (m1 : VersionedMeta)
    (nd2 : String) : ChainState :=
  ⟨encodeAddress (df (chainMeta2 df m1 nd2)),
   [(cidOf (df (chainMeta2 df m1 nd2)), chainMeta2 df m1 nd2),
    (cidOf (df m1), m1)]⟩

/-- Chain state after the second successful update. -/
def chainSt2 (df : VersionedMeta → List Nat) (m1 : VersionedMeta)
    (nd2 nd3 : String) : ChainState :=
  ⟨encodeAddress (df (chainMeta3 df m1 nd2 nd3)),
   [(cidOf (df (chainMeta3 df m1 nd2 nd3)), chainMeta3 df m1 nd2 nd3),
    (cidOf (df (chainMeta2 df m1 nd2)), chainMeta2 df m1 nd2),
    (cidOf (df m1), m1)]⟩

/-! ### Validator

`validateCertification` is translated directly from the source; the error
and warning entries are the exact strings the source pushes.  The spec's
`SoulboundViolation` names the entry "Asset should have clawback =
creator". -/

structure AssetView where
  total : Nat
  decimals : Nat
  creator : String
  clawback : String
  reserve : String
  url : Option String
deriving DecidableEq

/-- The metadata document as the validator sees it; a missing (falsy) name
or description is modelled as the empty string. -/
structure MetaView where
  name : String
  description : String
deriving DecidableEq

structure CidCheck where
  isValidCID : Bool
  conversionMatch : Bool
  originalCID : Option Cid
  convertedAddress : String
deriving DecidableEq

structure ValidationResult where
  isValid : Bool
  errors : List String
  warnings : List String
  assetInfo : Option AssetView
  metadataInfo : Option MetaView
  cidInfo : Option CidCheck
deriving DecidableEq

def codecErrorMessage : CodecError → String
  | .unsupportedDigest => "Unsupported digest"
  | .invalidChecksum => "Invalid checksum"
  | .invalidAddress => "Invalid address"

/-- Step 3 of the validator: reserve → CID → reserve round trip.  Returns
the `cidInfo` record and the error entries it pushes. -/
def cidCheckOf (reserve : String) : CidCheck × List String :=
  match fromAddressToCid reserve with
  | .ok originalCID =>
    match fromCidToAddress originalCID with
    | .ok convertedAddress =>
      if convertedAddress = reserve then
        (⟨true, true, some originalCID, convertedAddress⟩, [])
      else
        (⟨true, false, some originalCID, convertedAddress⟩,
         [("CID ↔ Address conversion mismatch")])
    | .error e =>
      (⟨false, false, none, ""⟩,
       [("Invalid CID conversion: ") ++ codecErrorMessage e])
  | .error e =>
    (⟨false, false, none, ""⟩,
     [("Invalid CID conversion: ") ++ codecErrorMessage e])

def ipfsPrefixChars : List Char := ['i', 'p', 'f', 's', ':', '/', '/']

/-- Strip a leading `ipfs://` scheme, if present. -/
def stripIpfs (u : String) : Option String :=
  if u.toList.take 7 = ipfsPrefixChars then
    some (String.mk (u.toList.drop 7))
  else none

/-- Step 4 of the validator: fetch the metadata document behind the asset's
URL.  Returns the document (if fetched), the error entries and the warning
entries it pushes. -/
def metaCheckOf (fetchMeta : String → Except String MetaView)
    (url : Option String) :
    Option MetaView × (List String × List String) :=
  match url with
  | some u =>
    match stripIpfs u with
    | some h =>
      match fetchMeta h with
      | .ok m =>
        (some m,
         ([],
          (if m.name = "" then [("Missing metadata name")] else []) ++
            (if m.description = "" then [("Missing metadata description")]
             else [])))
      | .error msg =>
        (none, ([("Failed to fetch IPFS metadata: ") ++ msg], []))
    | none => (none, ([("Asset URL should be IPFS URL")], []))
  | none => (none, ([("Asset URL should be IPFS URL")], []))

/-- `validateCertification`: fetch the asset (a lookup failure becomes the
single catch-all error entry), run the soulbound, codec round-trip and
metadata checks, and report `isValid` as `errors.length === 0`. -/
def validateCertification (getAsset : Except String AssetView)
    (fetchMeta : String → Except String MetaView) : ValidationResult :=
  match getAsset with
  | .error msg =>
    ⟨false, [("Failed to validate asset: ") ++ msg], [], none, none, none⟩
  | .ok asset =>
    let e1 : List String :=
      if asset.total ≠ 1 then [("Asset should have total supply = 1")]
      else []
    let e2 : List String :=
      if asset.clawback ≠ asset.creator then
        [("Asset should have clawback = creator")]
      else []
    let cc := cidCheckOf asset.reserve
    let mc := metaCheckOf fetchMeta asset.url
    let errors := e1 ++ e2 ++ cc.2 ++ mc.2.1
    ⟨errors.length == 0, errors, mc.2.2, some asset, mc.1, some cc.1⟩

/-! ### Concrete instances used by witnesses and counterexamples -/

/-- A CIDv0-shaped identifier (version 0, dag-pb codec 112) with a
sha2-256/32-byte digest — the `Qm…` form the repository's own examples
use for uploaded metadata. -/
def cexCid0 : Cid := ⟨0, 112, ⟨18, 32, List.replicate 32 0⟩⟩

/-- The metadata CID the witness collaborators return. -/
def wCid : Cid := ⟨1, 85, ⟨18, 32, List.replicate 32 7⟩⟩

/-- All-success collaborators. -/
def wDeps : MintDeps :=
  { creatorAddress := "CREATOR"
    up := fun f => .ok ⟨f.name, "h"⟩
    uploadJSON := fun _ => .ok wCid
    createAsset := fun _ => .ok ⟨42, "TX1"⟩
    updateReserve := fun _ => .ok ⟨"TX2", 99⟩ }

/-- Collaborators whose file upload fails exactly on the file named f5. -/
def wDepsFail5 : MintDeps :=
  { wDeps with
    up := fun f =>
      if f.name = "f5" then .error ⟨f, "boom"⟩ else .ok ⟨f.name, "h"⟩ }

/-- Collaborators whose reserve update fails after asset creation
succeeded. -/
def wDepsUpdFail : MintDeps :=
  { wDeps with updateReserve := fun _ => .error ("network down") }

def wData : DocumentData :=
  ⟨"Doc", "Desc", "Auth", "2024-01-15", "SBT", "CERT", "Org"⟩

/-- A digest function for the version-chain witness: 31 zero bytes followed
by the record's version (mod 256). -/
def wDf : VersionedMeta → List Nat :=
  fun m => List.replicate 31 0 ++ [m.version % 256]

def wMeta1 : VersionedMeta := ⟨1, none, "v1"⟩

/-- An asset whose clawback differs from its creator. -/
def wAssetBadClawback : AssetView :=
  ⟨1, 0, "CREATOR", "SOMEONEELSE", encodeAddress (List.replicate 32 3),
   none⟩

def wFetch : String → Except String MetaView := fun _ => .error ("nope")

/-! ## Lemmas: the base32/checksum address codec round trip -/

theorem bitsToNatMSB_byteToBits_fin :
    ∀ b : Fin 256, bitsToNatMSB (byteToBits b.val) = b.val := by decide

theorem bitsToNatMSB_byteToBits {b : Nat} (h : b < 256) :
    bitsToNatMSB (byteToBits b) = b :=
  bitsToNatMSB_byteToBits_fin ⟨b, h⟩

theorem chunkToBits_bitsToNatMSB :
    ∀ b0 b1 b2 b3 b4 : Bool,
      chunkToBits (bitsToNatMSB [b0, b1, b2, b3, b4]) =
        [b0, b1, b2, b3, b4] := by
  decide

theorem bitsToNatMSB_lt5 :
    ∀ b0 b1 b2 b3 b4 : Bool, bitsToNatMSB [b0, b1, b2, b3, b4] < 32 := by
  decide

theorem chunksToBits_chunk5 (l : List Bool) (h : l.length % 5 = 0) :
    chunksToBits (chunk5 l) = l := by
  induction l using chunk5.induct with
  | case1 b0 b1 b2 b3 b4 rest ih =>
    simp only [chunk5, chunksToBits, List.map_cons, List.flatten_cons]
    rw [chunkToBits_bitsToNatMSB]
    have : rest.length % 5 = 0 := by
      simp only [List.length_cons] at h
      omega
    have ih2 := ih this
    simp only [chunksToBits] at ih2
    rw [ih2]
    simp
  | case2 l h2 =>
    rcases l with _ | ⟨a, _ | ⟨b, _ | ⟨c, _ | ⟨d, _ | ⟨e, rest⟩⟩⟩⟩⟩
    · rfl
    · simp at h
    · simp at h
    · simp at h
    · simp at h
    · exact absurd rfl (h2 a b c d e rest)

theorem chunk5_length (l : List Bool) (h : l.length % 5 = 0) :
    (chunk5 l).length = l.length / 5 := by
  induction l using chunk5.induct with
  | case1 b0 b1 b2 b3 b4 rest ih =>
    have hr : rest.length % 5 = 0 := by
      simp only [List.length_cons] at h
      omega
    simp only [chunk5, List.length_cons, ih hr]
    omega
  | case2 l h2 =>
    rcases l with _ | ⟨a, _ | ⟨b, _ | ⟨c, _ | ⟨d, _ | ⟨e, rest⟩⟩⟩⟩⟩
    · rfl
    · simp at h
    · simp at h
    · simp at h
    · simp at h
    · exact absurd rfl (h2 a b c d e rest)

theorem chunk5_mem_lt (l : List Bool) : ∀ v ∈ chunk5 l, v < 32 := by
  induction l using chunk5.induct with
  | case1 b0 b1 b2 b3 b4 rest ih =>
    intro v hv
    simp only [chunk5, List.mem_cons] at hv
    rcases hv with rfl | hv
    · exact bitsToNatMSB_lt5 b0 b1 b2 b3 b4
    · exact ih v hv
  | case2 l h2 =>
    intro v hv
    rcases l with _ | ⟨a, _ | ⟨b, _ | ⟨c, _ | ⟨d, _ | ⟨e, rest⟩⟩⟩⟩⟩
    · simp [chunk5] at hv
    · simp [chunk5] at hv
    · simp [chunk5] at hv
    · simp [chunk5] at hv
    · simp [chunk5] at hv
    · exact absurd rfl (h2 a b c d e rest)

theorem bytesToBits_length (l : List Nat) :
    (bytesToBits l).length = 8 * l.length := by
  induction l with
  | nil => rfl
  | cons b t ih =>
    simp only [bytesToBits, List.map_cons, List.flatten_cons,
      List.length_append, List.length_cons] at ih ⊢
    rw [ih]
    simp [byteToBits]
    omega

theorem bitsToBytes_bytesToBits (l : List Nat) (h : ∀ b ∈ l, b < 256) :
    bitsToBytes (bytesToBits l) = l := by
  induction l with
  | nil => rfl
  | cons b t ih =>
    have hb : b < 256 := h b (List.mem_cons_self b t)
    have ht : ∀ x ∈ t, x < 256 := fun x hx => h x (List.mem_cons_of_mem b hx)
    show bitsToBytes (bytesToBits (b :: t)) = b :: t
    simp only [bytesToBits, List.map_cons, List.flatten_cons, byteToBits,
      List.cons_append, List.nil_append]
    rw [bitsToBytes]
    have : bitsToNatMSB [b.testBit 7, b.testBit 6, b.testBit 5, b.testBit 4,
        b.testBit 3, b.testBit 2, b.testBit 1, b.testBit 0] = b := by
      have := bitsToNatMSB_byteToBits hb
      simpa [byteToBits] using this
    rw [this]
    have ih2 := ih ht
    simp only [bytesToBits] at ih2
    rw [ih2]

theorem charToVal_valToChar_fin :
    ∀ v : Fin 32, charToVal (valToChar v.val) = some v.val := by decide

theorem charToVal_valToChar {v : Nat} (h : v < 32) :
    charToVal (valToChar v) = some v :=
  charToVal_valToChar_fin ⟨v, h⟩

theorem decodeVals_map (vals : List Nat) (h : ∀ v ∈ vals, v < 32) :
    decodeVals (vals.map valToChar) = some vals := by
  induction vals with
  | nil => rfl
  | cons v t ih =>
    have hv : v < 32 := h v (List.mem_cons_self v t)
    have ht : ∀ x ∈ t, x < 32 := fun x hx => h x (List.mem_cons_of_mem v hx)
    simp only [List.map_cons, decodeVals, charToVal_valToChar hv, ih ht]

theorem chk_length (p : List Nat) : (chk p).length = 4 := rfl

theorem chk_mem_lt (p : List Nat) : ∀ b ∈ chk p, b < 256 := by
  intro b hb
  simp only [chk, List.mem_cons, List.not_mem_nil, or_false] at hb
  rcases hb with rfl | rfl | rfl | rfl <;> exact Nat.mod_lt _ (by norm_num)

/-- Base32 round trip on a full 36-byte payload-plus-checksum string. -/
theorem base32DecodeBytes_encodeAddressBytes (bytes : List Nat)
    (hlen : bytes.length = 36) (hb : ∀ b ∈ bytes, b < 256) :
    base32DecodeBytes (encodeAddressBytes bytes) = some bytes := by
  have hbits : (bytesToBits bytes).length = 288 := by
    rw [bytesToBits_length, hlen]
  have hpadlen :
      ((bytesToBits bytes) ++
        List.replicate (zeroPad5 (bytesToBits bytes).length) false).length
        = 290 := by
    simp [hbits, zeroPad5]
  have hmod :
      ((bytesToBits bytes) ++
        List.replicate (zeroPad5 (bytesToBits bytes).length) false).length
        % 5 = 0 := by
    rw [hpadlen]
  set padded := (bytesToBits bytes) ++
    List.replicate (zeroPad5 (bytesToBits bytes).length) false with hpad
  have hchunks : (chunk5 padded).length = 58 := by
    rw [chunk5_length padded hmod, hpadlen]
  unfold base32DecodeBytes encodeAddressBytes
  have htl :
      (String.mk ((bitsToChunks5 (bytesToBits bytes)).map valToChar)).toList
        = (chunk5 padded).map valToChar := rfl
  rw [htl]
  rw [List.length_map, hchunks]
  rw [decodeVals_map _ (chunk5_mem_lt padded)]
  have hcb : chunksToBits (chunk5 padded) = padded :=
    chunksToBits_chunk5 padded hmod
  show some (bitsToBytes ((chunksToBits (chunk5 padded)).take 288))
      = some bytes
  rw [hcb]
  have htake : padded.take 288 = bytesToBits bytes := by
    rw [hpad, ← hbits, List.take_left]
  rw [htake, bitsToBytes_bytesToBits bytes hb]

/-- Decoding an encoded 32-byte payload passes the checksum comparison and
returns the payload. -/
theorem decodeAddress_encodeAddress (p : List Nat) (hlen : p.length = 32)
    (hb : ∀ b ∈ p, b < 256) :
    decodeAddress (encodeAddress p) = .ok p := by
  have hfull : (p ++ chk p).length = 36 := by
    simp [hlen, chk_length]
  have hfb : ∀ b ∈ p ++ chk p, b < 256 := by
    intro b hmem
    rcases List.mem_append.mp hmem with hmem | hmem
    · exact hb b hmem
    · exact chk_mem_lt p b hmem
  unfold decodeAddress encodeAddress
  rw [base32DecodeBytes_encodeAddressBytes _ hfull hfb]
  have hdrop : (p ++ chk p).drop 32 = chk p := by
    rw [← hlen, List.drop_left]
  have htake : (p ++ chk p).take 32 = p := by
    rw [← hlen, List.take_left]
  show (if (p ++ chk p).drop 32 = chk ((p ++ chk p).take 32) then
      Except.ok ((p ++ chk p).take 32)
    else Except.error CodecError.invalidChecksum) = Except.ok p
  rw [hdrop, htake, if_pos rfl]

theorem fromAddressToCid_encodeAddress (p : List Nat) (hlen : p.length = 32)
    (hb : ∀ b ∈ p, b < 256) :
    fromAddressToCid (encodeAddress p) = .ok (cidOf p) := by
  unfold fromAddressToCid
  rw [decodeAddress_encodeAddress p hlen hb]
  rfl

theorem fromCidToAddress_cidOf (d : List Nat) (hd : d.length = 32) :
    fromCidToAddress (cidOf d) = .ok (encodeAddress d) := by
  unfold fromCidToAddress cidOf
  exact if_pos ⟨rfl, rfl, hd⟩

/-! ## Claim C1 — codec round trip -/

/-- Claim C1, counterexample: the claim quantifies over every CID whose
multihash is sha2-256 with a 32-byte digest, but `fromAddressToCid` always
rebuilds a version-1 CID with the raw codec tag 85
(`CID.createV1(0x55, multihash)` in the source).  For a version-0/dag-pb
CID — the `Qm…` form the repository's own examples use for uploaded
metadata — the round trip returns a different CID. -/
theorem cidRoundTrip_c1_cex :
    Except.bind (fromCidToAddress cexCid0) fromAddressToCid =
      .ok (⟨1, 85, ⟨18, 32, List.replicate 32 0⟩⟩ : Cid)
    ∧ (⟨1, 85, ⟨18, 32, List.replicate 32 0⟩⟩ : Cid) ≠ cexCid0 := by
  exact ⟨by decide, by decide⟩

/-- Claim C1, amended: for every CID with version 1, the raw codec tag 85,
and a sha2-256 multihash with a 32-byte digest,
`fromAddressToCid (fromCidToAddress c) = c`.  Both functions are pure Lean
functions, so neither call mutates any external state. -/
theorem cidRoundTrip_c1 (cid : Cid) (hv : cid.version = 1)
    (hc : cid.codec = 85) (hcode : cid.mh.code = 18)
    (hsize : cid.mh.size = 32) (hlen : cid.mh.digest.length = 32)
    (hb : ∀ b ∈ cid.mh.digest, b < 256) :
    Except.bind (fromCidToAddress cid) fromAddressToCid = .ok cid := by
  obtain ⟨v, c, code, size, digest⟩ := cid
  simp only at hv hc hcode hsize hlen hb
  subst hv hc hcode hsize
  unfold fromCidToAddress
  rw [if_pos ⟨rfl, rfl, hlen⟩]
  show fromAddressToCid (encodeAddress digest) = _
  rw [fromAddressToCid_encodeAddress digest hlen hb]
  rfl

/-- Claim C1, witness: the amended round trip evaluated on a concrete
version-1/raw CID. -/
theorem cidRoundTrip_c1_witness :
    Except.bind (fromCidToAddress ⟨1, 85, ⟨18, 32, List.range 32⟩⟩)
      fromAddressToCid = .ok ⟨1, 85, ⟨18, 32, List.range 32⟩⟩ :=
  cidRoundTrip_c1 ⟨1, 85, ⟨18, 32, List.range 32⟩⟩ rfl rfl rfl rfl
    (by decide) (by decide)

/-! ## Claim C2 — unsupported digests are rejected -/

/-- Claim C2: a CID whose multihash is not sha2-256 (id 18) or whose digest
is not exactly 32 bytes makes `fromCidToAddress` fail with
`UnsupportedDigest`; the function is pure, so it produces no output and
performs no mutation. -/
theorem unsupportedDigest_c2 (cid : Cid)
    (h : cid.mh.code ≠ 18 ∨ cid.mh.digest.length ≠ 32) :
    fromCidToAddress cid = .error .unsupportedDigest := by
  unfold fromCidToAddress
  rw [if_neg]
  rintro ⟨h1, _, h3⟩
  rcases h with h | h
  · exact h h1
  · exact h h3

/-- Claim C2, witness: a sha1-style multihash (id 17, 20-byte digest) is
rejected. -/
theorem unsupportedDigest_c2_witness :
    ((⟨0, 112, ⟨17, 20, List.replicate 20 0⟩⟩ : Cid).mh.code ≠ 18 ∨
      (⟨0, 112, ⟨17, 20, List.replicate 20 0⟩⟩ : Cid).mh.digest.length ≠ 32)
    ∧ fromCidToAddress ⟨0, 112, ⟨17, 20, List.replicate 20 0⟩⟩ =
      .error .unsupportedDigest :=
  ⟨by decide, unsupportedDigest_c2 _ (by decide)⟩

/-! ## Claim C3 — checksum mismatches are rejected -/

/-- Claim C3: any 58-character address string that base32-decodes to 36
bytes whose trailing 4 bytes differ from the checksum recomputed over the
leading 32 bytes makes `fromAddressToCid` fail with `InvalidChecksum`. -/
theorem invalidChecksum_c3 (s : String) (bytes : List Nat)
    (hdec : base32DecodeBytes s = some bytes)
    (hbad : bytes.drop 32 ≠ chk (bytes.take 32)) :
    fromAddressToCid s = .error .invalidChecksum := by
  have h1 : decodeAddress s = .error .invalidChecksum := by
    unfold decodeAddress
    rw [hdec]
    show (if bytes.drop 32 = chk (bytes.take 32) then
        Except.ok (bytes.take 32)
      else Except.error CodecError.invalidChecksum) = _
    rw [if_neg hbad]
  unfold fromAddressToCid
  rw [h1]

/-- Claim C3, witness: an address rendered from an all-zero payload with a
corrupted trailing checksum is rejected. -/
theorem invalidChecksum_c3_witness :
    base32DecodeBytes
        (encodeAddressBytes (List.replicate 32 0 ++ [9, 9, 9, 9]))
      = some (List.replicate 32 0 ++ [9, 9, 9, 9])
    ∧ (List.replicate 32 0 ++ [9, 9, 9, 9]).drop 32 ≠
      chk ((List.replicate 32 0 ++ [9, 9, 9, 9]).take 32)
    ∧ fromAddressToCid
        (encodeAddressBytes (List.replicate 32 0 ++ [9, 9, 9, 9]))
      = .error .invalidChecksum :=
  ⟨by decide, by decide,
    invalidChecksum_c3
      (encodeAddressBytes (List.replicate 32 0 ++ [9, 9, 9, 9]))
      (List.replicate 32 0 ++ [9, 9, 9, 9]) (by decide) (by decide)⟩

/-! ## Claim C4 — batched upload and fail-fast abort -/

/-- Claim C4: uploading 7 files with the hard-coded batch size 3 slices
exactly the batches [3, 3, 1]; when the upload of file #5 fails (and the
earlier files succeed), the whole upload fails with the `UploadError`
naming file #5, and `createDocumentCertification` aborts before any ledger
call — in particular no asset-create call occurs (empty event trace). -/
theorem uploadBatching_c4 (deps : MintDeps) (data : DocumentData)
    (f1 f2 f3 f4 f5 f6 f7 : MFile) (h1 h2 h3 h4 : FileHash) (msg : String)
    (hval : validData data = true)
    (hu1 : deps.up f1 = .ok h1) (hu2 : deps.up f2 = .ok h2)
    (hu3 : deps.up f3 = .ok h3) (hu4 : deps.up f4 = .ok h4)
    (hu5 : deps.up f5 = .error ⟨f5, msg⟩) :
    (batches3 [f1, f2, f3, f4, f5, f6, f7]).map List.length = [3, 3, 1]
    ∧ uploadFilesInParallel deps.up [f1, f2, f3, f4, f5, f6, f7] =
      .error ⟨f5, msg⟩
    ∧ createDocumentCertification deps data [f1, f2, f3, f4, f5, f6, f7] =
      (.error (.uploadError ⟨f5, msg⟩), []) := by
  have hbatch : batches3 [f1, f2, f3, f4, f5, f6, f7] =
      [[f1, f2, f3], [f4, f5, f6], [f7]] := rfl
  have hupload : uploadFilesInParallel deps.up [f1, f2, f3, f4, f5, f6, f7]
      = .error ⟨f5, msg⟩ := by
    show uploadBatches deps.up (batches3 [f1, f2, f3, f4, f5, f6, f7]) = _
    rw [hbatch]
    simp only [uploadBatches, promiseAll, List.map_cons, List.map_nil,
      hu1, hu2, hu3, hu4, hu5]
  have hassets : uploadCertificationAssets deps data
      [f1, f2, f3, f4, f5, f6, f7] = .error (.uploadError ⟨f5, msg⟩) := by
    unfold uploadCertificationAssets
    rw [hupload]
  refine ⟨rfl, hupload, ?_⟩
  unfold createDocumentCertification
  rw [hval, hassets]
  simp

/-- Claim C4, witness: seven concrete files against collaborators that fail
exactly on the file named f5. -/
theorem uploadBatching_c4_witness :
    (batches3 [(⟨"f1"⟩ : MFile), ⟨"f2"⟩, ⟨"f3"⟩, ⟨"f4"⟩, ⟨"f5"⟩, ⟨"f6"⟩,
        ⟨"f7"⟩]).map List.length = [3, 3, 1]
    ∧ uploadFilesInParallel wDepsFail5.up
        [⟨"f1"⟩, ⟨"f2"⟩, ⟨"f3"⟩, ⟨"f4"⟩, ⟨"f5"⟩, ⟨"f6"⟩, ⟨"f7"⟩] =
      .error ⟨⟨"f5"⟩, "boom"⟩
    ∧ createDocumentCertification wDepsFail5 wData
        [⟨"f1"⟩, ⟨"f2"⟩, ⟨"f3"⟩, ⟨"f4"⟩, ⟨"f5"⟩, ⟨"f6"⟩, ⟨"f7"⟩] =
      (.error (.uploadError ⟨⟨"f5"⟩, "boom"⟩), []) :=
  uploadBatching_c4 wDepsFail5 wData ⟨"f1"⟩ ⟨"f2"⟩ ⟨"f3"⟩ ⟨"f4"⟩ ⟨"f5"⟩
    ⟨"f6"⟩ ⟨"f7"⟩ ⟨"f1", "h"⟩ ⟨"f2", "h"⟩ ⟨"f3", "h"⟩ ⟨"f4", "h"⟩ "boom"
    (by decide) (by decide) (by decide) (by decide) (by decide) (by decide)

/-! ## Claim C5 — asset-creation parameters -/

/-- Claim C5: every asset-create call the saga issues uses total 1,
decimals 0, clawback equal to the creator address, the creator address as
the initial reserve placeholder, and the informational URL of the uploaded
metadata. -/
theorem assetCreateParams_c5 (deps : MintDeps) (data : DocumentData)
    (files : List MFile) (p : CreateAssetParams)
    (hp : LedgerEvent.assetCreate p ∈
      (createDocumentCertification deps data files).2) :
    p.total = 1 ∧ p.decimals = 0 ∧ p.clawback = deps.creatorAddress
    ∧ p.reserve = deps.creatorAddress
    ∧ ∃ r, uploadCertificationAssets deps data files = .ok r
        ∧ p.url = r.metadataUrl := by
  unfold createDocumentCertification at hp
  split at hp
  · simp at hp
  · split at hp
    · simp at hp
    · rename_i ipfsResult heq
      split at hp
      · simp at hp
      · dsimp only at hp
        split at hp
        · simp only [List.mem_singleton] at hp
          obtain rfl : p = mintAssetParams deps data ipfsResult := by
            cases hp
            rfl
          exact ⟨rfl, rfl, rfl, rfl, ipfsResult, heq, rfl⟩
        · split at hp
          · simp only [List.mem_cons, List.not_mem_nil, or_false] at hp
            rcases hp with hp | hp
            · obtain rfl : p = mintAssetParams deps data ipfsResult := by
                cases hp
                rfl
              exact ⟨rfl, rfl, rfl, rfl, ipfsResult, heq, rfl⟩
            · cases hp
          · simp only [List.mem_cons, List.not_mem_nil, or_false] at hp
            rcases hp with hp | hp
            · obtain rfl : p = mintAssetParams deps data ipfsResult := by
                cases hp
                rfl
              exact ⟨rfl, rfl, rfl, rfl, ipfsResult, heq, rfl⟩
            · cases hp

/-- Claim C5, witness: a concrete successful run whose asset-create call
satisfies all the claimed parameters. -/
theorem assetCreateParams_c5_witness :
    LedgerEvent.assetCreate
        (mintAssetParams wDeps wData ⟨[], wCid, ("ipfs://") ++ cidText wCid⟩)
      ∈ (createDocumentCertification wDeps wData []).2
    ∧ ((mintAssetParams wDeps wData
          ⟨[], wCid, ("ipfs://") ++ cidText wCid⟩).total = 1
      ∧ (mintAssetParams wDeps wData
          ⟨[], wCid, ("ipfs://") ++ cidText wCid⟩).decimals = 0
      ∧ (mintAssetParams wDeps wData
          ⟨[], wCid, ("ipfs://") ++ cidText wCid⟩).clawback =
        wDeps.creatorAddress
      ∧ (mintAssetParams wDeps wData
          ⟨[], wCid, ("ipfs://") ++ cidText wCid⟩).reserve =
        wDeps.creatorAddress
      ∧ ∃ r, uploadCertificationAssets wDeps wData [] = .ok r
          ∧ (mintAssetParams wDeps wData
              ⟨[], wCid, ("ipfs://") ++ cidText wCid⟩).url =
            r.metadataUrl) := by
  have htr : (createDocumentCertification wDeps wData []).2 =
      [LedgerEvent.assetCreate
        (mintAssetParams wDeps wData ⟨[], wCid, ("ipfs://") ++ cidText wCid⟩),
       LedgerEvent.reserveUpdate ⟨42, encodeAddress (List.replicate 32 7)⟩] :=
    rfl
  have hmem : LedgerEvent.assetCreate
      (mintAssetParams wDeps wData ⟨[], wCid, ("ipfs://") ++ cidText wCid⟩)
      ∈ (createDocumentCertification wDeps wData []).2 := by
    rw [htr]
    exact List.mem_cons_self _ _
  exact ⟨hmem, assetCreateParams_c5 wDeps wData [] _ hmem⟩

/-! ## Claim C6 — failure after asset creation -/

/-- Claim C6, counterexample: with collaborators whose reserve update fails
after the asset (id 42) was created, `createDocumentCertification` returns
the raw `updateReserveError` — not a `PartialMintFailure` — and the error
carries no asset id, even though the trace shows the asset-create call
committed and the reserve update for asset 42 was attempted. -/
theorem partialMint_c6_cex :
    (createDocumentCertification wDepsUpdFail wData []).1 =
      .error (.updateReserveError ("network down"))
    ∧ LedgerEvent.reserveUpdate ⟨42, encodeAddress (List.replicate 32 7)⟩ ∈
      (createDocumentCertification wDepsUpdFail wData []).2
    ∧ mintErrorAssetId (.updateReserveError ("network down")) = none :=
  ⟨by decide, by decide, rfl⟩

/-- Claim C6, amended: when the reserve-update step fails after the asset
was created, `createDocumentCertification` fails by propagating the
reserve-update collaborator's error as `updateReserveError`; the error does
not carry the created asset id (no `PartialMintFailure` is produced). -/
theorem partialMint_c6 (deps : MintDeps) (data : DocumentData)
    (files : List MFile) (res : Except MintError MintingResult)
    (trace : List LedgerEvent) (u : UpdateReserveParams) (e : String)
    (hrun : createDocumentCertification deps data files = (res, trace))
    (hu : LedgerEvent.reserveUpdate u ∈ trace)
    (hfail : deps.updateReserve u = .error e) :
    res = .error (.updateReserveError e)
    ∧ mintErrorAssetId (.updateReserveError e) = none := by
  refine ⟨?_, rfl⟩
  unfold createDocumentCertification at hrun
  by_cases hval : validData data = false
  · rw [if_pos hval] at hrun
    simp only [Prod.mk.injEq] at hrun
    obtain ⟨rfl, rfl⟩ := hrun
    cases hu
  · rw [if_neg hval] at hrun
    cases hups : uploadCertificationAssets deps data files with
    | error e1 =>
      rw [hups] at hrun
      simp only [Prod.mk.injEq] at hrun
      obtain ⟨rfl, rfl⟩ := hrun
      cases hu
    | ok ipfsResult =>
      rw [hups] at hrun
      dsimp only at hrun
      cases hcid : fromCidToAddress ipfsResult.metadataCid with
      | error ec =>
        rw [hcid] at hrun
        simp only [Prod.mk.injEq] at hrun
        obtain ⟨rfl, rfl⟩ := hrun
        cases hu
      | ok reserveAddress =>
        rw [hcid] at hrun
        dsimp only at hrun
        cases hca : deps.createAsset (mintAssetParams deps data ipfsResult) with
        | error e1 =>
          rw [hca] at hrun
          simp only [Prod.mk.injEq] at hrun
          obtain ⟨rfl, rfl⟩ := hrun
          simp at hu
        | ok cr =>
          rw [hca] at hrun
          dsimp only at hrun
          cases hupd : deps.updateReserve ⟨cr.assetId, reserveAddress⟩ with
          | error e2 =>
            rw [hupd] at hrun
            simp only [Prod.mk.injEq] at hrun
            obtain ⟨rfl, rfl⟩ := hrun
            simp only [List.mem_cons, List.not_mem_nil, or_false] at hu
            rcases hu with hu | hu
            · cases hu
            · simp only [LedgerEvent.reserveUpdate.injEq] at hu
              subst hu
              rw [hupd] at hfail
              obtain rfl : e2 = e := by
                cases hfail
                rfl
              rfl
          | ok ur =>
            rw [hupd] at hrun
            simp only [Prod.mk.injEq] at hrun
            obtain ⟨rfl, rfl⟩ := hrun
            simp only [List.mem_cons, List.not_mem_nil, or_false] at hu
            rcases hu with hu | hu
            · cases hu
            · simp only [LedgerEvent.reserveUpdate.injEq] at hu
              subst hu
              rw [hupd] at hfail
              cases hfail

/-- Claim C6, witness: the amended behaviour evaluated on the concrete
failing-update collaborators. -/
theorem partialMint_c6_witness :
    (createDocumentCertification wDepsUpdFail wData []).1 =
      .error (.updateReserveError ("network down"))
    ∧ mintErrorAssetId (.updateReserveError ("network down")) = none :=
  partialMint_c6 wDepsUpdFail wData []
    (createDocumentCertification wDepsUpdFail wData []).1
    (createDocumentCertification wDepsUpdFail wData []).2
    ⟨42, encodeAddress (List.replicate 32 7)⟩ ("network down") rfl
    (by decide) (by decide)

/-! ## Claim C7 — no optimistic re-read before writing -/

/-- Claim C7, counterexample: a concrete update in which the on-chain
reserve at write time differs from the reserve read at the start of the
call still succeeds — no `VersionConflict` is raised, because the source
issues `updateAssetReserve` directly without re-reading. -/
theorem versionConflict_c7_cex :
    updateSucceeded (updateCertification wDf (chainSt0 wDf wMeta1)
        ("DIFFERENTRESERVE") ("v2")) = true
    ∧ ("DIFFERENTRESERVE") ≠ (chainSt0 wDf wMeta1).reserve
    ∧ updateCertification wDf (chainSt0 wDf wMeta1) ("DIFFERENTRESERVE")
        ("v2") ≠ .error .versionConflict :=
  ⟨by decide, by decide, by decide⟩

/-- Claim C7, amended: `updateCertification` performs no re-read before
writing — its outcome is independent of the on-chain reserve at write time,
and it never fails with `VersionConflict`. -/
theorem versionConflict_c7 (df : VersionedMeta → List Nat)
    (st : ChainState) (w w2 nd : String) :
    updateCertification df st w nd = updateCertification df st w2 nd
    ∧ updateCertification df st w nd ≠ .error .versionConflict := by
  constructor
  · rfl
  · intro h
    unfold updateCertification at h
    split at h
    · simp at h
    · split at h
      · simp at h
      · dsimp only at h
        split at h
        · simp at h
        · simp at h

/-- One successful `updateCertification` step, explicitly: decode the
reserve, look up the previous record, mint the next record with version
incremented by one and the back-reference set to the previous record's CID,
store it, and repoint the reserve. -/
theorem updateCertification_step (df : VersionedMeta → List Nat)
    (st : ChainState) (w nd : String) (ccid : Cid) (prevMeta : VersionedMeta)
    (h1 : fromAddressToCid st.reserve = .ok ccid)
    (h2 : lookupMeta st.store ccid = some prevMeta)
    (hd : (df ⟨prevMeta.version + 1, some ccid, nd⟩).length = 32) :
    updateCertification df st w nd =
      .ok (⟨encodeAddress (df ⟨prevMeta.version + 1, some ccid, nd⟩),
            (cidOf (df ⟨prevMeta.version + 1, some ccid, nd⟩),
              (⟨prevMeta.version + 1, some ccid, nd⟩ : VersionedMeta))
              :: st.store⟩,
           ⟨cidOf (df ⟨prevMeta.version + 1, some ccid, nd⟩),
            prevMeta.version + 1,
            encodeAddress (df ⟨prevMeta.version + 1, some ccid, nd⟩)⟩) := by
  unfold updateCertification
  rw [h1]
  dsimp only
  rw [h2]
  dsimp only
  rw [fromCidToAddress_cidOf _ hd]

/-! ## Claim C8 — version numbers and back-references -/

/-- Claim C8: starting from a version-1 record, two successive
`updateCertification` calls succeed and produce records with versions 2 and
3 — each exactly one greater than the current version — and each new
record's back-reference CID equals the immediately preceding record's own
CID (version 2 points at version 1's CID, version 3 at version 2's). -/
theorem versionChain_c8 (df : VersionedMeta → List Nat)
    (m1 : VersionedMeta) (nd2 nd3 w2 w3 : String)
    (hdf : ∀ m, (df m).length = 32 ∧ ∀ b ∈ df m, b < 256)
    (hv1 : m1.version = 1) :
    updateCertification df (chainSt0 df m1) w2 nd2 =
      .ok (chainSt1 df m1 nd2,
           ⟨cidOf (df (chainMeta2 df m1 nd2)), 2,
            encodeAddress (df (chainMeta2 df m1 nd2))⟩)
    ∧ updateCertification df (chainSt1 df m1 nd2) w3 nd3 =
      .ok (chainSt2 df m1 nd2 nd3,
           ⟨cidOf (df (chainMeta3 df m1 nd2 nd3)), 3,
            encodeAddress (df (chainMeta3 df m1 nd2 nd3))⟩)
    ∧ (chainMeta2 df m1 nd2).version = m1.version + 1
    ∧ (chainMeta2 df m1 nd2).previousCid = some (cidOf (df m1))
    ∧ (chainMeta3 df m1 nd2 nd3).version = (chainMeta2 df m1 nd2).version + 1
    ∧ (chainMeta3 df m1 nd2 nd3).previousCid =
      some (cidOf (df (chainMeta2 df m1 nd2))) := by
  obtain ⟨v1, pc1, pl1⟩ := m1
  simp only at hv1
  subst hv1
  obtain ⟨hl1, hb1⟩ := hdf ⟨1, pc1, pl1⟩
  obtain ⟨hl2, hb2⟩ := hdf (chainMeta2 df ⟨1, pc1, pl1⟩ nd2)
  obtain ⟨hl3, hb3⟩ := hdf (chainMeta3 df ⟨1, pc1, pl1⟩ nd2 nd3)
  refine ⟨?_, ?_, rfl, rfl, rfl, rfl⟩
  · have s1 := updateCertification_step df (chainSt0 df ⟨1, pc1, pl1⟩) w2 nd2
      (cidOf (df ⟨1, pc1, pl1⟩)) ⟨1, pc1, pl1⟩
      (fromAddressToCid_encodeAddress _ hl1 hb1)
      (by simp [chainSt0, lookupMeta])
      hl2
    exact s1
  · have s2 := updateCertification_step df (chainSt1 df ⟨1, pc1, pl1⟩ nd2)
      w3 nd3 (cidOf (df (chainMeta2 df ⟨1, pc1, pl1⟩ nd2)))
      (chainMeta2 df ⟨1, pc1, pl1⟩ nd2)
      (fromAddressToCid_encodeAddress _ hl2 hb2)
      (by simp [chainSt1, lookupMeta])
      hl3
    exact s2

/-- Claim C8, witness: the two-update chain evaluated with a concrete
digest function and initial record. -/
theorem versionChain_c8_witness :
    updateCertification wDf (chainSt0 wDf wMeta1) ("W2") ("v2") =
      .ok (chainSt1 wDf wMeta1 ("v2"),
           ⟨cidOf (wDf (chainMeta2 wDf wMeta1 ("v2"))), 2,
            encodeAddress (wDf (chainMeta2 wDf wMeta1 ("v2")))⟩)
    ∧ updateCertification wDf (chainSt1 wDf wMeta1 ("v2")) ("W3") ("v3") =
      .ok (chainSt2 wDf wMeta1 ("v2") ("v3"),
           ⟨cidOf (wDf (chainMeta3 wDf wMeta1 ("v2") ("v3"))), 3,
            encodeAddress (wDf (chainMeta3 wDf wMeta1 ("v2") ("v3")))⟩)
    ∧ (chainMeta2 wDf wMeta1 ("v2")).version = wMeta1.version + 1
    ∧ (chainMeta2 wDf wMeta1 ("v2")).previousCid = some (cidOf (wDf wMeta1))
    ∧ (chainMeta3 wDf wMeta1 ("v2") ("v3")).version =
      (chainMeta2 wDf wMeta1 ("v2")).version + 1
    ∧ (chainMeta3 wDf wMeta1 ("v2") ("v3")).previousCid =
      some (cidOf (wDf (chainMeta2 wDf wMeta1 ("v2")))) :=
  versionChain_c8 wDf wMeta1 ("v2") ("v3") ("W2") ("W3")
    (by
      intro m
      refine ⟨by simp [wDf], ?_⟩
      intro b hb
      simp only [wDf, List.mem_append, List.mem_replicate,
        List.mem_singleton] at hb
      rcases hb with ⟨_, rfl⟩ | rfl
      · norm_num
      · exact Nat.mod_lt _ (by norm_num))
    rfl

/-! ## Claim C9 — soulbound check and total error handling -/

/-- Claim C9: validating an asset whose clawback differs from its creator
yields `isValid = false` with the soulbound-violation entry ("Asset should
have clawback = creator") among the errors; a failed asset lookup becomes a
single error entry in an otherwise well-formed result.  `validateCertification`
is a total function, so no path raises an uncaught fault. -/
theorem soulboundValidation_c9 :
    (∀ (asset : AssetView) (fm : String → Except String MetaView),
      asset.clawback ≠ asset.creator →
        (validateCertification (.ok asset) fm).isValid = false
        ∧ ("Asset should have clawback = creator") ∈
          (validateCertification (.ok asset) fm).errors)
    ∧ (∀ (msg : String) (fm : String → Except String MetaView),
        (validateCertification (.error msg) fm).isValid = false
        ∧ (validateCertification (.error msg) fm).errors.length = 1) := by
  constructor
  · intro asset fm h
    unfold validateCertification
    dsimp only
    rw [if_pos h]
    constructor
    · rw [beq_eq_false_iff_ne]
      simp [List.length_append]
    · simp
  · intro msg fm
    exact ⟨rfl, rfl⟩

/-- Claim C9, witness: the soulbound branch on a concrete asset with
clawback ≠ creator, and the lookup-failure branch on a concrete message. -/
theorem soulboundValidation_c9_witness :
    ((validateCertification (.ok wAssetBadClawback) wFetch).isValid = false
      ∧ ("Asset should have clawback = creator") ∈
        (validateCertification (.ok wAssetBadClawback) wFetch).errors)
    ∧ ((validateCertification (.error ("asset not found")) wFetch).isValid
        = false
      ∧ (validateCertification (.error ("asset not found"))
          wFetch).errors.length = 1) :=
  ⟨soulboundValidation_c9.1 wAssetBadClawback wFetch (by decide),
    soulboundValidation_c9.2 ("asset not found") wFetch⟩

/-! ## Claim C10 — isValid mirrors emptiness of errors -/

/-- Claim C10: on every path — including the catch-all lookup-failure
path — the `ValidationResult` satisfies `isValid = errors.isEmpty`:
`isValid` is true exactly when the error list is empty. -/
theorem isValidIffNoErrors_c10 (getAsset : Except String AssetView)
    (fm : String → Except String MetaView) :
    (validateCertification getAsset fm).isValid =
      (validateCertification getAsset fm).errors.isEmpty := by
  have hlen : ∀ l : List String, (l.length == 0) = l.isEmpty := by
    intro l
    cases l <;> rfl
  cases getAsset with
  | error msg => rfl
  | ok asset =>
    unfold validateCertification
    dsimp only
    exact hlen _

end ArtCertify
